import Mathlib

/-!
Shallow embedding of the Emby media-client module (app/services/media/emby.py):
the provisioning workflow join, the directory sync list_users, the library
resolution and policy patching inside set_specific_folders, the sparse-update
coercion of update_user, and the helpers create_user and mark_invite_used.

Python dictionaries are modelled as association lists with last-write-wins
lookup (dlookup) and in-place overwrite (dictSet), matching CPython dict
semantics for the repertoire the source uses (membership, item get, item
set, dict.update). JSON scalar values are modelled by PVal. External effects
(HTTP calls, session commits, the invitation validity check, the wall clock)
are supplied by an Oracle record holding each call's outcome, and the local
database is explicit state threaded through the functions. Exceptions are
modelled with Except and Option; timestamps are integers counted in days.
-/

/-- JSON-ish runtime value: the value shapes that update_user type-sniffs over. -/
inductive PVal : Type
  | b : Bool → PVal
  | i : Int → PVal
  | s : String → PVal
  | l : List String → PVal
deriving DecidableEq, Repr

/-- Dictionary lookup, last write wins (CPython dict item get). -/
def dlookup {α : Type} : List (String × α) → String → Option α
  | [], _ => none
  | p :: rest, k =>
    match dlookup rest k with
    | some v => some v
    | none => if p.1 = k then some p.2 else none

/-- Dictionary item set: overwrite the entry in place when the key is present,
append it otherwise (CPython dict item set, one step of dict.update). -/
def dictSet {α : Type} (d : List (String × α)) (k : String) (v : α) : List (String × α) :=
  if d.any (fun p => p.1 == k) then d.map (fun p => if p.1 = k then (k, v) else p)
  else d ++ [(k, v)]

theorem dlookup_append {α : Type} (d1 d2 : List (String × α)) (k : String) :
    dlookup (d1 ++ d2) k =
      match dlookup d2 k with
      | some v => some v
      | none => dlookup d1 k := by
  induction d1 with
  | nil =>
    simp only [List.nil_append, dlookup]
    cases dlookup d2 k <;> rfl
  | cons p rest ih =>
    show (match dlookup (rest ++ d2) k with
          | some v => some v
          | none => if p.1 = k then some p.2 else none) = _
    rw [ih]
    show _ = (match dlookup d2 k with
          | some w => some w
          | none => match dlookup rest k with
            | some w => some w
            | none => if p.1 = k then some p.2 else none)
    cases dlookup d2 k <;> cases dlookup rest k <;> rfl

theorem dlookup_eq_none_iff {α : Type} (d : List (String × α)) (k : String) :
    dlookup d k = none ↔ k ∉ d.map Prod.fst := by
  induction d with
  | nil => simp [dlookup]
  | cons p rest ih =>
    simp only [dlookup, List.map_cons, List.mem_cons, not_or]
    cases h : dlookup rest k with
    | some v =>
      have hk : k ∈ rest.map Prod.fst := by
        by_contra hn
        rw [← ih] at hn
        rw [h] at hn
        simp at hn
      simp [hk]
    | none =>
      by_cases hk : p.1 = k
      · simp [hk]
      · have h2 : k ∉ rest.map Prod.fst := ih.mp h
        simp [hk, h2, Ne.symm hk]

theorem dlookup_mem {α : Type} (d : List (String × α)) (k : String) (v : α) :
    dlookup d k = some v → (k, v) ∈ d := by
  induction d with
  | nil => intro h; simp [dlookup] at h
  | cons p rest ih =>
    show (match dlookup rest k with
          | some w => some w
          | none => if p.1 = k then some p.2 else none) = some v → _
    cases hr : dlookup rest k with
    | some w =>
      intro h
      injection h with h
      subst h
      exact List.mem_cons_of_mem _ (ih hr)
    | none =>
      intro h
      by_cases hk : p.1 = k
      · rw [if_pos hk] at h
        injection h with h
        have hp : p = (k, v) := by
          cases p with
          | mk a b => simp_all
        rw [← hp]
        exact List.mem_cons_self _ _
      · rw [if_neg hk] at h
        exact absurd h (by simp)

theorem dlookup_isSome_iff {α : Type} (d : List (String × α)) (k : String) :
    (dlookup d k).isSome = true ↔ k ∈ d.map Prod.fst := by
  cases h : dlookup d k with
  | none =>
    rw [dlookup_eq_none_iff] at h
    simp [h]
  | some v =>
    simp only [Option.isSome_some, true_iff]
    exact List.mem_map_of_mem Prod.fst (dlookup_mem d k v h)

theorem dlookup_map_overwrite {α : Type} (d : List (String × α)) (k : String) (v : α)
    (h : k ∈ d.map Prod.fst) :
    dlookup (d.map (fun p => if p.1 = k then (k, v) else p)) k = some v := by
  induction d with
  | nil => simp at h
  | cons p rest ih =>
    simp only [List.map_cons, dlookup]
    by_cases hr : k ∈ rest.map Prod.fst
    · rw [ih hr]
    · have hmap : rest.map (fun p => if p.1 = k then (k, v) else p) = rest := by
        have : ∀ q ∈ rest, (if q.1 = k then (k, v) else q) = q := by
          intro q hq
          have : q.1 ≠ k := fun he => hr (he ▸ List.mem_map_of_mem Prod.fst hq)
          simp [this]
        rw [List.map_congr_left this]
        simp
      rw [hmap]
      have hnone : dlookup rest k = none := (dlookup_eq_none_iff rest k).mpr hr
      rw [hnone]
      have hp : p.1 = k := by
        rw [List.map_cons, List.mem_cons] at h
        rcases h with h1 | h1
        · exact h1.symm
        · exact absurd h1 hr
      simp [hp]

theorem dlookup_map_overwrite_ne {α : Type} (d : List (String × α)) (k k' : String) (v : α)
    (h : k' ≠ k) :
    dlookup (d.map (fun p => if p.1 = k then (k, v) else p)) k' = dlookup d k' := by
  induction d with
  | nil => rfl
  | cons p rest ih =>
    simp only [List.map_cons, dlookup, ih]
    by_cases hp : p.1 = k
    · have h1 : ¬ ((k : String) = k') := Ne.symm h
      have h2 : ¬ (p.1 = k') := hp ▸ h1
      simp [hp, h1, h2]
    · simp [hp]

theorem dlookup_dictSet_self {α : Type} (d : List (String × α)) (k : String) (v : α) :
    dlookup (dictSet d k v) k = some v := by
  unfold dictSet
  by_cases hm : d.any (fun p => p.1 == k) = true
  · rw [if_pos hm]
    apply dlookup_map_overwrite
    simp only [List.any_eq_true, beq_iff_eq] at hm
    rcases hm with ⟨p, hp, he⟩
    exact he ▸ List.mem_map_of_mem Prod.fst hp
  · rw [if_neg hm, dlookup_append]
    simp [dlookup]

theorem dlookup_dictSet_ne {α : Type} (d : List (String × α)) (k k' : String) (v : α)
    (h : k' ≠ k) :
    dlookup (dictSet d k v) k' = dlookup d k' := by
  unfold dictSet
  by_cases hm : d.any (fun p => p.1 == k) = true
  · rw [if_pos hm]
    exact dlookup_map_overwrite_ne d k k' v h
  · rw [if_neg hm, dlookup_append]
    have : ¬ ((k : String) = k') := Ne.symm h
    simp [dlookup, this]

theorem mem_keys_dictSet {α : Type} (d : List (String × α)) (k k' : String) (v : α) :
    k ∈ (dictSet d k' v).map Prod.fst ↔ (k ∈ d.map Prod.fst ∨ k = k') := by
  unfold dictSet
  by_cases hm : d.any (fun p => p.1 == k') = true
  · rw [if_pos hm]
    simp only [List.any_eq_true, beq_iff_eq] at hm
    rcases hm with ⟨q, hq, he⟩
    have hkeys : (d.map (fun p => if p.1 = k' then (k', v) else p)).map Prod.fst
        = d.map Prod.fst := by
      rw [List.map_map]
      apply List.map_congr_left
      intro p _
      by_cases hp : p.1 = k'
      · simp [hp]
      · simp [hp]
    rw [hkeys]
    constructor
    · exact Or.inl
    · intro h
      rcases h with h | h
      · exact h
      · rw [h, ← he]
        exact List.mem_map_of_mem Prod.fst hq
  · rw [if_neg hm]
    simp

/-- One library reference resolved against the catalog, as in the loop of
set_specific_folders: a ref that is a key of id_to_name resolves to itself
(direct identifier match first); otherwise a ref that is a key of name_to_id
resolves to that name's identifier (the dictionary comprehension keyed by
name keeps the last identifier for a duplicated name); otherwise the ref is
dropped (logged warning, no failure). -/
def resolveRef (folders : List (String × String)) (n : String) : Option String :=
  if (dlookup folders n).isSome then some n
  else dlookup (folders.map (fun p => (p.2, p.1))) n

/-- The folder_ids list right after the resolution loop of set_specific_folders. -/
def resolveRaw (folders : List (String × String)) (names : List String) : List String :=
  names.filterMap (resolveRef folders)

/-- The final folder_ids: falsy (empty-string) identifiers are removed and the
list is de-duplicated, as by list(set(...)) with the falsy filter. -/
def resolveFolders (folders : List (String × String)) (names : List String) : List String :=
  ((resolveRaw folders names).filter (fun s => s != "")).dedup

/-- The fixed baseline playback-capability flags forced on after every patch. -/
def playbackPermissions : List (String × PVal) :=
  [("EnableMediaPlayback", PVal.b true),
   ("EnableAudioPlaybackTranscoding", PVal.b true),
   ("EnableVideoPlaybackTranscoding", PVal.b true),
   ("EnablePlaybackRemuxing", PVal.b true),
   ("EnableContentDownloading", PVal.b true),
   ("EnableRemoteAccess", PVal.b true)]

/-- The policy that set_specific_folders sends to set_policy: the fetched
current policy, overwritten by the patch (EnableAllFolders = the resolved
list is empty, EnabledFolders = the resolved list) and then by the playback
permission floor. -/
def applyPolicyPatch (current : List (String × PVal)) (folder_ids : List String) :
    List (String × PVal) :=
  let patched := dictSet (dictSet current "EnableAllFolders" (PVal.b folder_ids.isEmpty))
      "EnabledFolders" (PVal.l folder_ids)
  playbackPermissions.foldl (fun d q => dictSet d q.1 q.2) patched

/-- Remote HTTP calls the module can issue, recorded as a call trace. -/
inductive RemoteCall : Type
  | usersNew
  | usersPassword
  | mediaFolders
  | usersGet
  | usersPolicy
  | deleteUser
deriving DecidableEq, Repr

/-- Outcomes of the external effects a single join or sync invocation performs:
each HTTP call's result (an error value models both RemoteError and
TransportError, i.e. any raised exception), whether each session commit
succeeds, whether the notification call returns, the result of the external
invitation validity check for the submitted code, and the current time in
days. -/
structure Oracle : Type where
  createUserNew : Except Unit String
  setPasswordCall : Except Unit Unit
  mediaFoldersCall : Except Unit (List (String × String))
  userPolicyCall : Except Unit (List (String × PVal))
  setPolicyCall : Except Unit Unit
  commitUser : Bool
  commitInvite : Bool
  notifyOk : Bool
  inviteValid : Bool × String
  now : Int

/-- A row of the Library table: external identifier, display name, enabled flag. -/
structure LibraryRec : Type where
  external_id : String
  name : String
  enabled : Bool
deriving DecidableEq, Repr

/-- A row of the Invitation table, as read and mutated by join. -/
structure InvitationRec : Type where
  code : String
  libraries : List LibraryRec
  unlimited : Bool
  duration : Option String
  used : Bool
  used_at : Option Int
  used_by : Option String
deriving DecidableEq, Repr

/-- A row of the local User table (the LocalUserRecord). -/
structure UserRec : Type where
  username : String
  email : String
  password : String
  token : String
  code : String
  expires : Option Int
deriving DecidableEq, Repr

/-- The committed local database state. -/
structure DB : Type where
  users : List UserRec
  invitations : List InvitationRec
  libraries : List LibraryRec
deriving DecidableEq, Repr

/-- What a join invocation produces: the returned (success, message) pair, the
committed database afterwards, and the trace of remote HTTP calls issued. -/
structure JoinOut : Type where
  ok : Bool
  msg : String
  db : DB
  trace : List RemoteCall
deriving DecidableEq, Repr

/-- EmbyClient.create_user: POST /Users/New, then POST /Users/id/Password
inside a try/except that logs and swallows any error, then return the new
identifier. Returns the outcome together with the calls issued. -/
def create_user (o : Oracle) : Except Unit String × List RemoteCall :=
  match o.createUserNew with
  | .error e => (.error e, [.usersNew])
  | .ok user_id =>
    match o.setPasswordCall with
    | .error _ => (.ok user_id, [.usersNew, .usersPassword])
    | .ok _ => (.ok user_id, [.usersNew, .usersPassword])

/-- set_specific_folders: fetch the media folders, resolve the requested names
against them, build the policy patch over the account's fetched current
policy, force the playback floor, and send the merged policy. Returns the
policy sent to set_policy (or the raised error) and the calls issued. -/
def set_specific_folders (o : Oracle) (names : List String) :
    Except Unit (List (String × PVal)) × List RemoteCall :=
  match o.mediaFoldersCall with
  | .error _ => (.error (), [.mediaFolders])
  | .ok folders =>
    let folder_ids := resolveFolders folders names
    match o.userPolicyCall with
    | .error _ => (.error (), [.mediaFolders, .usersGet])
    | .ok current =>
      let sent := applyPolicyPatch current folder_ids
      match o.setPolicyCall with
      | .error _ => (.error (), [.mediaFolders, .usersGet, .usersPolicy])
      | .ok _ => (.ok sent, [.mediaFolders, .usersGet, .usersPolicy])

/-- Accumulate the value of a decimal digit run; none on a non-digit. -/
def digitsValAux : Nat → List Char → Option Nat
  | acc, [] => some acc
  | acc, c :: rest =>
    if c.isDigit then digitsValAux (acc * 10 + (c.toNat - 48)) rest else none

/-- The value of a nonempty all-digit character run, none otherwise. -/
def digitsVal (l : List Char) : Option Nat :=
  match l with
  | [] => none
  | _ => digitsValAux 0 l

/-- Python int(string) for a plain optionally signed decimal literal:
raises (none) on anything else. -/
def pyIntOfString (s : String) : Option Int :=
  match s.data with
  | '-' :: rest => (digitsVal rest).map (fun n => -(n : Int))
  | '+' :: rest => (digitsVal rest).map (fun n => (n : Int))
  | l => (digitsVal l).map (fun n => (n : Int))

/-- The expiration computation of join: Python truthiness of inv.duration (a
nullable string column), int() conversion (which raises on an unparsable
string, modelled by the outer Option), and now + timedelta(days). -/
def computeExpires (duration : Option String) (now : Int) : Option (Option Int) :=
  match duration with
  | none => some none
  | some s => if s = "" then some none else (pyIntOfString s).map (fun d => some (now + d))

/-- mark_invite_used: set used to true unless the invitation is unlimited,
stamp used_at with the current time and used_by with the new user. The
session commit it performs is decided by the oracle at the call site. -/
def mark_invite_used (inv : InvitationRec) (usedBy : String) (now : Int) : InvitationRec :=
  { inv with
    used := if inv.unlimited then inv.used else true
    used_at := some now
    used_by := some usedBy }

/-- Split a character list at every at-sign (Python re based check support). -/
def splitAtSign : List Char → List (List Char)
  | [] => [[]]
  | c :: rest =>
    let r := splitAtSign rest
    if c = '@' then [] :: r
    else
      match r with
      | [] => [[c]]
      | h :: t => (c :: h) :: t

/-- Whether a dot occurs strictly inside the list (not first, not last). -/
def hasInteriorDot (l : List Char) : Bool := ((l.drop 1).dropLast).contains '.'

/-- EMAIL_RE.fullmatch: the pattern is one-or-more non-at characters, an
at-sign, one-or-more non-at characters, a literal dot, one-or-more non-at
characters. A full match exists exactly when the string contains a single
at-sign, at least one character before it, and a dot strictly inside the
part after it. -/
def emailOk (s : String) : Bool :=
  match splitAtSign s.data with
  | [a, b] => !a.isEmpty && hasInteriorDot b
  | _ => false

/-- The generic user-facing failure message of join's exception handler. -/
def genericErr : String := "An unexpected error occurred during user creation."

/-- The body of join's try block, entered after all validations passed:
remote account creation (abort on failure), swallowed password set,
invitation lookup (attribute access on a missing row raises), library scope
selection, set_specific_folders, expiration computation, local user insert
plus commit, mark_invite_used plus its own commit, notification. Any raised
exception is caught by the handler, which rolls back the uncommitted session
state and returns the generic message. -/
def joinTry (o : Oracle) (db : DB) (username password email code : String) : JoinOut :=
  match create_user o with
  | (.error _, tr) => ⟨false, genericErr, db, tr⟩
  | (.ok user_id, tr) =>
    match db.invitations.find? (fun i => i.code == code) with
    | none => ⟨false, genericErr, db, tr⟩
    | some inv =>
      let sections :=
        if inv.libraries.isEmpty then
          (db.libraries.filter (fun l => l.enabled)).map (fun l => l.external_id)
        else inv.libraries.map (fun l => l.external_id)
      match set_specific_folders o sections with
      | (.error _, tr2) => ⟨false, genericErr, db, tr ++ tr2⟩
      | (.ok _, tr2) =>
        match computeExpires inv.duration o.now with
        | none => ⟨false, genericErr, db, tr ++ tr2⟩
        | some expires =>
          let new_user : UserRec := ⟨username, email, "emby-user", user_id, code, expires⟩
          if o.commitUser = false then ⟨false, genericErr, db, tr ++ tr2⟩
          else
            let db1 : DB := ⟨db.users ++ [new_user], db.invitations, db.libraries⟩
            if o.commitInvite = false then ⟨false, genericErr, db1, tr ++ tr2⟩
            else
              let db2 : DB := ⟨db1.users,
                db1.invitations.map (fun i =>
                  if i.code = inv.code then mark_invite_used i username o.now else i),
                db1.libraries⟩
              if o.notifyOk = false then ⟨false, genericErr, db2, tr ++ tr2⟩
              else ⟨true, "", db2, tr ++ tr2⟩

/-- join: the input validations in source order (each an early return with its
specific message, before any remote call and without touching state), then
the try block. -/
def join (o : Oracle) (db : DB) (username password confirm email code : String) : JoinOut :=
  if emailOk email = false then ⟨false, "Invalid e-mail address.", db, []⟩
  else if ¬ (8 ≤ password.length ∧ password.length ≤ 20) then
    ⟨false, "Password must be 8–20 characters.", db, []⟩
  else if password ≠ confirm then ⟨false, "Passwords do not match.", db, []⟩
  else if o.inviteValid.1 = false then ⟨false, o.inviteValid.2, db, []⟩
  else if db.users.any (fun u => u.username == username || u.email == email) then
    ⟨false, "User or e-mail already exists.", db, []⟩
  else joinTry o db username password email code

/-- The placeholder local record list_users creates for an unmirrored remote
account: token is the remote identifier, username the remote name, and the
sentinel value for email, code and password. -/
def placeholderUser (rid rname : String) : UserRec :=
  ⟨rname, "empty", "empty", rid, "empty", none⟩

/-- A Python dict built from a list of key-value pairs by successive item
sets: first occurrence fixes the position, last occurrence the value. -/
def pyDict (l : List (String × String)) : List (String × String) :=
  l.foldl (fun d p => dictSet d p.1 p.2) []

/-- EmbyClient.list_users: build the remote account dictionary keyed by Id,
add a placeholder local record for every remote account with no local record
of the same token and commit, then delete every local record whose token is
not a remote Id and commit, then return the current local set. -/
def list_users (remote : List (String × String)) (users : List UserRec) : List UserRec :=
  let eu := pyDict remote
  let users1 := users ++ eu.filterMap (fun p =>
    if users.any (fun u => u.token == p.1) then none else some (placeholderUser p.1 p.2))
  users1.filter (fun u => eu.any (fun p => p.1 == u.token))

/-- Python val == "True" for the runtime values PVal covers: only the exact
string yields true; a bool, int or list compared to a string is unequal. -/
def pyEqTrueStr : PVal → Bool
  | .s s => s == "True"
  | _ => false

/-- Python int(val) for the runtime values PVal covers: ints pass through,
bools become 0 or 1, strings are parsed (raising, i.e. none, when not an
integer literal), lists raise. -/
def pyInt : PVal → Option Int
  | .b b => some (if b then 1 else 0)
  | .i n => some n
  | .s s => pyIntOfString s
  | .l _ => none

/-- Split a character list on each leftmost occurrence of comma-space, the
separator literal that update_user passes to str.split. -/
def splitCommaSpace : List Char → List (List Char)
  | [] => [[]]
  | ',' :: ' ' :: rest => [] :: splitCommaSpace rest
  | c :: rest =>
    match splitCommaSpace rest with
    | [] => [[c]]
    | h :: t => (c :: h) :: t

/-- Python str.split with the comma-space separator. -/
def pySplitCommaSpace (s : String) : List String :=
  (splitCommaSpace s.data).map (fun cs => String.mk cs)

/-- The per-field coercion of update_user, dispatched on the runtime type of
the current value: bool target compares the incoming value against the
literal string True; int target applies int(); list target maps the empty
string to the empty list and splits any other string on a comma-space (a
non-string raises, since only the empty-string comparison precedes the
split); any other target type assigns the incoming value unchanged. -/
def coerce (target val : PVal) : Option PVal :=
  match target with
  | .b _ => some (.b (pyEqTrueStr val))
  | .i _ => (pyInt val).map PVal.i
  | .l _ =>
    match val with
    | .s str => some (if str = "" then .l [] else .l (pySplitCommaSpace str))
    | _ => none
  | .s _ => some val

/-- A remote account as update_user sees it: its Policy and Configuration. -/
structure Account : Type where
  policy : List (String × PVal)
  configuration : List (String × PVal)
deriving DecidableEq, Repr

/-- One section step of update_user's inner loop: when the key is present the
current value's type drives the coercion and the coerced value is written
back and also replaces the loop variable; when absent nothing changes. -/
def updSection (sec : List (String × PVal)) (key : String) (val : PVal) :
    Option (List (String × PVal) × PVal) :=
  match dlookup sec key with
  | some target => (coerce target val).map (fun v => (dictSet sec key v, v))
  | none => some (sec, val)

/-- One form entry of update_user: the Policy section first, then the
Configuration section, the latter receiving the possibly already coerced
loop variable. -/
def updKey (acc : Account) (key : String) (val : PVal) : Option Account :=
  match updSection acc.policy key val with
  | none => none
  | some (pol, val1) =>
    match updSection acc.configuration key val1 with
    | none => none
    | some (cfg, _) => some ⟨pol, cfg⟩

/-- EmbyClient.update_user: fold every form entry over the fetched account
(none models an exception escaping the call). -/
def update_user (acc : Account) (form : List (String × PVal)) : Option Account :=
  match form with
  | [] => some acc
  | (k, v) :: rest =>
    match updKey acc k v with
    | none => none
    | some acc1 => update_user acc1 rest

/-- Claim C3: for every account (fetched current policy) and every resolved id
set S (the resolution of the requested names against the fetched catalog),
set_specific_folders sends set_policy a policy in which EnableAllFolders
equals S.isEmpty, EnabledFolders equals S, and the six baseline playback
flags (EnableMediaPlayback, EnableAudioPlaybackTranscoding,
EnableVideoPlaybackTranscoding, EnablePlaybackRemuxing,
EnableContentDownloading, EnableRemoteAccess) are all true, regardless of
their prior value in the fetched policy or their absence from the patch. -/
theorem c3_policy_patch_floor (o : Oracle) (names : List String)
    (folders : List (String × String)) (current : List (String × PVal))
    (hf : o.mediaFoldersCall = .ok folders) (hp : o.userPolicyCall = .ok current)
    (hs : o.setPolicyCall = .ok ()) :
    (set_specific_folders o names).1
        = .ok (applyPolicyPatch current (resolveFolders folders names))
    ∧ dlookup (applyPolicyPatch current (resolveFolders folders names)) "EnableAllFolders"
        = some (PVal.b (resolveFolders folders names).isEmpty)
    ∧ dlookup (applyPolicyPatch current (resolveFolders folders names)) "EnabledFolders"
        = some (PVal.l (resolveFolders folders names))
    ∧ (∀ flag ∈ ["EnableMediaPlayback", "EnableAudioPlaybackTranscoding",
        "EnableVideoPlaybackTranscoding", "EnablePlaybackRemuxing",
        "EnableContentDownloading", "EnableRemoteAccess"],
        dlookup (applyPolicyPatch current (resolveFolders folders names)) flag
          = some (PVal.b true)) := by
  refine ⟨?_, ?_, ?_, ?_⟩
  · simp [set_specific_folders, hf, hp, hs]
  · simp only [applyPolicyPatch, playbackPermissions, List.foldl_cons, List.foldl_nil]
    repeat first
    | rw [dlookup_dictSet_self]
    | rw [dlookup_dictSet_ne]
    all_goals decide
  · simp only [applyPolicyPatch, playbackPermissions, List.foldl_cons, List.foldl_nil]
    repeat first
    | rw [dlookup_dictSet_self]
    | rw [dlookup_dictSet_ne]
    all_goals decide
  · intro flag hflag
    fin_cases hflag <;>
    · simp only [applyPolicyPatch, playbackPermissions, List.foldl_cons, List.foldl_nil]
      repeat first
      | rw [dlookup_dictSet_self]
      | rw [dlookup_dictSet_ne]
      all_goals decide

/-- Witness for claim C3 at a concrete account whose current policy has
EnableMediaPlayback disabled: the sent policy forces it true. -/
theorem c3_policy_patch_floor_witness :
    dlookup (applyPolicyPatch [("EnableMediaPlayback", PVal.b false)]
        (resolveFolders [("L1", "Movies")] ["Movies"])) "EnableMediaPlayback"
      = some (PVal.b true) := by
  have h := c3_policy_patch_floor
    ⟨Except.ok "u", Except.ok (), Except.ok [("L1", "Movies")],
      Except.ok [("EnableMediaPlayback", PVal.b false)], Except.ok (),
      true, true, true, (true, ""), 0⟩
    ["Movies"] [("L1", "Movies")] [("EnableMediaPlayback", PVal.b false)] rfl rfl rfl
  exact h.2.2.2 "EnableMediaPlayback" (by decide)

/-- Claim C4 (counterexample): the empty string is an identifier present in
this catalog and occurs in the ref list, yet resolution returns the empty
set: the falsy filter list(set(fid for fid in folder_ids if fid)) drops an
empty-string identifier, so not every ref that exactly matches an identifier
of the catalog maps to a member of the result. -/
theorem c4_resolution_counterexample :
    ("" : String) ∈ ([(("" : String), ("Movies" : String))].map Prod.fst)
    ∧ ("" : String) ∈ [("" : String)]
    ∧ resolveFolders [("", "Movies")] [""] = [] := by decide

/-- Claim C4 (amended): resolution returns a de-duplicated list of identifiers
present in the catalog; a ref equal to a catalog identifier resolves to
itself (identifier match takes precedence over name match), and lands in the
result whenever that identifier is non-empty; a ref matching no identifier
but equal to a catalog name resolves to that name's identifier and lands in
the result whenever that identifier is non-empty; refs matching neither, and
refs whose resolved identifier is the empty string, are dropped without
failing the call. -/
theorem c4_resolution_amended (folders : List (String × String)) (names : List String) :
    (∀ x ∈ resolveFolders folders names, x ∈ folders.map Prod.fst)
    ∧ (resolveFolders folders names).Nodup
    ∧ (∀ n ∈ names, n ∈ folders.map Prod.fst → resolveRef folders n = some n)
    ∧ (∀ n ∈ names, n ∈ folders.map Prod.fst → n ≠ "" → n ∈ resolveFolders folders names)
    ∧ (∀ n ∈ names, ∀ i : String, n ∉ folders.map Prod.fst →
        dlookup (folders.map (fun p => (p.2, p.1))) n = some i → i ≠ "" →
        i ∈ resolveFolders folders names) := by
  refine ⟨?_, ?_, ?_, ?_, ?_⟩
  · intro x hx
    rw [resolveFolders, List.mem_dedup, List.mem_filter] at hx
    rcases List.mem_filterMap.mp hx.1 with ⟨n, _, he⟩
    rw [resolveRef] at he
    by_cases hs : (dlookup folders n).isSome = true
    · rw [if_pos hs] at he
      injection he with he
      subst he
      exact (dlookup_isSome_iff folders n).mp hs
    · rw [if_neg hs] at he
      rcases List.mem_map.mp (dlookup_mem _ n x he) with ⟨p, hp, hpe⟩
      have hfst : p.1 = x := congrArg Prod.snd hpe
      exact hfst ▸ List.mem_map_of_mem Prod.fst hp
  · exact List.nodup_dedup _
  · intro n _ hmem
    rw [resolveRef, if_pos ((dlookup_isSome_iff folders n).mpr hmem)]
  · intro n hn hmem hne
    rw [resolveFolders, List.mem_dedup, List.mem_filter]
    refine ⟨List.mem_filterMap.mpr ⟨n, hn, ?_⟩, by simp [hne]⟩
    rw [resolveRef, if_pos ((dlookup_isSome_iff folders n).mpr hmem)]
  · intro n hn i hnot hlk hne
    rw [resolveFolders, List.mem_dedup, List.mem_filter]
    refine ⟨List.mem_filterMap.mpr ⟨n, hn, ?_⟩, by simp [hne]⟩
    have hs : ¬ ((dlookup folders n).isSome = true) := fun h =>
      hnot ((dlookup_isSome_iff folders n).mp h)
    rw [resolveRef, if_neg hs, hlk]

/-- Claim C8 (counterexample): the account has a boolean IsAdmin field in both
its Policy and its Configuration block and the patch value is the string
True; the Policy copy becomes true, but the Configuration copy becomes
false, because the loop variable already holds the coerced boolean when the
Configuration block is processed, so the claimed coercion of the patch value
against the matching existing field does not hold for every field. -/
theorem c8_update_user_counterexample :
    update_user ⟨[("IsAdmin", PVal.b false)], [("IsAdmin", PVal.b false)]⟩
        [("IsAdmin", PVal.s "True")]
      = some ⟨[("IsAdmin", PVal.b true)], [("IsAdmin", PVal.b false)]⟩ := by decide

/-- Claim C8 (amended): update_user coerces the incoming form value to the
runtime type of the matching existing field before overwriting, with the
stated examples, whenever the key occurs in at most one of the Policy and
Configuration blocks: a boolean field patched with the string True becomes
true, a list field patched with the empty string becomes the empty list, and
a key present in neither block is ignored (merge, not replacement). When a
key occurs in both blocks, the Policy copy is coerced from the form value
but the Configuration copy is coerced from the already-coerced loop value,
so two boolean copies patched with the string True end as Policy true and
Configuration false. -/
theorem c8_update_user_amended (pol cfg : List (String × PVal)) (key : String) :
    (∀ v : PVal, dlookup pol key = none → dlookup cfg key = none →
      update_user ⟨pol, cfg⟩ [(key, v)] = some ⟨pol, cfg⟩)
    ∧ (∀ b : Bool, dlookup pol key = some (PVal.b b) → dlookup cfg key = none →
      update_user ⟨pol, cfg⟩ [(key, PVal.s "True")]
        = some ⟨dictSet pol key (PVal.b true), cfg⟩)
    ∧ (∀ b : Bool, dlookup pol key = none → dlookup cfg key = some (PVal.b b) →
      update_user ⟨pol, cfg⟩ [(key, PVal.s "True")]
        = some ⟨pol, dictSet cfg key (PVal.b true)⟩)
    ∧ (∀ xs : List String, dlookup pol key = some (PVal.l xs) → dlookup cfg key = none →
      update_user ⟨pol, cfg⟩ [(key, PVal.s "")]
        = some ⟨dictSet pol key (PVal.l []), cfg⟩)
    ∧ (∀ b c : Bool, dlookup pol key = some (PVal.b b) → dlookup cfg key = some (PVal.b c) →
      update_user ⟨pol, cfg⟩ [(key, PVal.s "True")]
        = some ⟨dictSet pol key (PVal.b true), dictSet cfg key (PVal.b false)⟩) := by
  refine ⟨?_, ?_, ?_, ?_, ?_⟩
  · intro v h1 h2
    simp [update_user, updKey, updSection, h1, h2]
  · intro b h1 h2
    simp [update_user, updKey, updSection, h1, h2, coerce, pyEqTrueStr]
  · intro b h1 h2
    simp [update_user, updKey, updSection, h1, h2, coerce, pyEqTrueStr]
  · intro xs h1 h2
    simp [update_user, updKey, updSection, h1, h2, coerce]
  · intro b c h1 h2
    simp [update_user, updKey, updSection, h1, h2, coerce, pyEqTrueStr]

theorem mem_keys_pyDict (l : List (String × String)) (k : String) :
    k ∈ (pyDict l).map Prod.fst ↔ k ∈ l.map Prod.fst := by
  suffices h : ∀ acc : List (String × String),
      k ∈ (l.foldl (fun d p => dictSet d p.1 p.2) acc).map Prod.fst
        ↔ (k ∈ acc.map Prod.fst ∨ k ∈ l.map Prod.fst) by
    have h0 := h []
    simpa [pyDict] using h0
  induction l with
  | nil => intro acc; simp
  | cons p rest ih =>
    intro acc
    simp only [List.foldl_cons]
    rw [ih (dictSet acc p.1 p.2), mem_keys_dictSet]
    simp only [List.map_cons, List.mem_cons]
    tauto

theorem mem_list_users_iff (remote : List (String × String)) (users : List UserRec)
    (u : UserRec) :
    u ∈ list_users remote users
    ↔ ((u ∈ users ∨ ∃ p ∈ pyDict remote,
          (users.any (fun w => w.token == p.1)) = false ∧ u = placeholderUser p.1 p.2)
        ∧ u.token ∈ remote.map Prod.fst) := by
  unfold list_users
  simp only [List.mem_filter, List.mem_append, List.mem_filterMap]
  constructor
  · rintro ⟨h1, h2⟩
    constructor
    · rcases h1 with h1 | ⟨p, hp, he⟩
      · exact Or.inl h1
      · right
        refine ⟨p, hp, ?_⟩
        cases hb : users.any (fun w => w.token == p.1) with
        | true =>
          rw [if_pos hb] at he
          exact absurd he (by simp)
        | false =>
          rw [hb] at he
          simp only [Bool.false_eq_true, if_false] at he
          injection he with he
          exact ⟨rfl, he.symm⟩
    · rw [← mem_keys_pyDict]
      simp only [List.any_eq_true, beq_iff_eq] at h2
      rcases h2 with ⟨p, hp, he⟩
      exact he ▸ List.mem_map_of_mem Prod.fst hp
  · rintro ⟨h1, h2⟩
    constructor
    · rcases h1 with h1 | ⟨p, hp, hany, he⟩
      · exact Or.inl h1
      · right
        refine ⟨p, hp, ?_⟩
        rw [hany]
        simp [he]
    · rw [← mem_keys_pyDict] at h2
      rcases List.mem_map.mp h2 with ⟨p, hp, he⟩
      simp only [List.any_eq_true, beq_iff_eq]
      exact ⟨p, hp, he⟩

/-- Claim C6: after list_users completes, the local set mirrors the fetched
remote set matched by remote identifier: a token occurs in the returned
local set exactly when it is a fetched remote Id; every remote account with
no matching local record yields its placeholder record in the result; no
record whose token is absent from the fetched remote set survives; and the
concrete scenario remote A,B with local A,C ends as local A,B with C deleted
and B created as a placeholder. -/
theorem c6_sync_mirrors_remote (remote : List (String × String)) (users : List UserRec) :
    (∀ t : String, (∃ u ∈ list_users remote users, u.token = t) ↔ t ∈ remote.map Prod.fst)
    ∧ (∀ rid rname : String, (rid, rname) ∈ pyDict remote →
        (∀ u ∈ users, u.token ≠ rid) →
        placeholderUser rid rname ∈ list_users remote users)
    ∧ (∀ u : UserRec, u.token ∉ remote.map Prod.fst → u ∉ list_users remote users)
    ∧ list_users [("A", "nA"), ("B", "nB")]
        [⟨"ua", "e", "p", "A", "c", none⟩, ⟨"uc", "e", "p", "C", "c", none⟩]
      = [⟨"ua", "e", "p", "A", "c", none⟩, placeholderUser "B" "nB"] := by
  refine ⟨?_, ?_, ?_, by decide⟩
  · intro t
    constructor
    · rintro ⟨u, hu, rfl⟩
      exact ((mem_list_users_iff remote users u).mp hu).2
    · intro ht
      cases hb : users.any (fun w => w.token == t) with
      | true =>
        simp only [List.any_eq_true, beq_iff_eq] at hb
        rcases hb with ⟨u0, hu0, he⟩
        refine ⟨u0, ?_, he⟩
        apply (mem_list_users_iff remote users u0).mpr
        exact ⟨Or.inl hu0, he ▸ ht⟩
      | false =>
        rw [← mem_keys_pyDict] at ht
        rcases List.mem_map.mp ht with ⟨p, hp, he⟩
        refine ⟨placeholderUser p.1 p.2, ?_, he⟩
        apply (mem_list_users_iff remote users _).mpr
        refine ⟨Or.inr ⟨p, hp, ?_, rfl⟩, ?_⟩
        · rw [← he] at hb
          exact hb
        · show p.1 ∈ remote.map Prod.fst
          rw [← mem_keys_pyDict]
          exact he ▸ ht
  · intro rid rname hp hnone
    apply (mem_list_users_iff remote users _).mpr
    constructor
    · right
      refine ⟨(rid, rname), hp, ?_, rfl⟩
      apply List.any_eq_false.mpr
      intro w hw
      simp only [beq_iff_eq]
      exact hnone w hw
    · show rid ∈ remote.map Prod.fst
      rw [← mem_keys_pyDict]
      exact List.mem_map_of_mem Prod.fst hp
  · intro u hnot hu
    exact hnot ((mem_list_users_iff remote users u).mp hu).2

/-- A reusable concrete invitation with no duration and no library list. -/
def invA : InvitationRec := ⟨"codeA", [], false, none, false, none, none⟩

/-- A reusable concrete enabled library row. -/
def lib1 : LibraryRec := ⟨"L1", "Movies", true⟩

/-- A concrete database holding one open invitation and one enabled library. -/
def dbA : DB := ⟨[], [invA], [lib1]⟩

/-- An oracle on which every external effect succeeds. -/
def oOk : Oracle :=
  ⟨Except.ok "uid1", Except.ok (), Except.ok [("L1", "Movies")], Except.ok [],
    Except.ok (), true, true, true, (true, ""), 0⟩

/-- Claim C10: join enforces its validations before any remote call: a
non-matching email, a password length outside 8..20, a password different
from its confirmation, an invalid invitation code, or an existing local user
with the same username or email each produce (false, the specific message)
with no remote HTTP request issued and no change to local state. -/
theorem c10_join_validations (o : Oracle) (db : DB)
    (username password confirm email code : String) :
    (emailOk email = false →
      join o db username password confirm email code
        = ⟨false, "Invalid e-mail address.", db, []⟩)
    ∧ (emailOk email = true → ¬ (8 ≤ password.length ∧ password.length ≤ 20) →
      join o db username password confirm email code
        = ⟨false, "Password must be 8–20 characters.", db, []⟩)
    ∧ (emailOk email = true → (8 ≤ password.length ∧ password.length ≤ 20) →
      password ≠ confirm →
      join o db username password confirm email code
        = ⟨false, "Passwords do not match.", db, []⟩)
    ∧ (emailOk email = true → (8 ≤ password.length ∧ password.length ≤ 20) →
      password = confirm → o.inviteValid.1 = false →
      join o db username password confirm email code
        = ⟨false, o.inviteValid.2, db, []⟩)
    ∧ (emailOk email = true → (8 ≤ password.length ∧ password.length ≤ 20) →
      password = confirm → o.inviteValid.1 = true →
      db.users.any (fun u => u.username == username || u.email == email) = true →
      join o db username password confirm email code
        = ⟨false, "User or e-mail already exists.", db, []⟩) := by
  refine ⟨?_, ?_, ?_, ?_, ?_⟩
  · intro h1
    simp [join, h1]
  · intro h1 h2
    simp [join, h1, h2]
  · intro h1 h2 h3
    simp [join, h1, h2, h3]
  · intro h1 h2 h3 h4
    subst h3
    simp [join, h1, h2, h4]
  · intro h1 h2 h3 h4 h5
    subst h3
    simp [join, h1, h2, h4, h5]

/-- Claim C5: when every validation passes but the remote account creation
call raises, join returns (false, the generic message), the local database
is unchanged (no LocalUserRecord created, invitation untouched), and the
only remote call issued was the failed creation. -/
theorem c5_create_failure_aborts (o : Oracle) (db : DB)
    (username password confirm email code : String)
    (hv1 : emailOk email = true)
    (hv2 : 8 ≤ password.length ∧ password.length ≤ 20)
    (hv3 : password = confirm)
    (hv4 : o.inviteValid.1 = true)
    (hv5 : db.users.any (fun u => u.username == username || u.email == email) = false)
    (hc : o.createUserNew = .error ()) :
    join o db username password confirm email code
      = ⟨false, genericErr, db, [RemoteCall.usersNew]⟩ := by
  subst hv3
  simp [join, hv1, hv2, hv4, hv5, joinTry, create_user, hc]

/-- Witness for claim C5 at a concrete all-valid input whose remote account
creation fails. -/
theorem c5_create_failure_aborts_witness :
    join { oOk with createUserNew := .error () } dbA
        "alice" "password1" "password1" "a@b.c" "codeA"
      = ⟨false, genericErr, dbA, [RemoteCall.usersNew]⟩ :=
  c5_create_failure_aborts { oOk with createUserNew := .error () } dbA
    "alice" "password1" "password1" "a@b.c" "codeA"
    (by decide) (by decide) rfl rfl (by decide) rfl

/-- Claim C2: when every validation passes, the remote account creation
succeeds and the subsequent password-set call raises, the error is
swallowed: create_user still returns the new identifier, the workflow
continues (here every later step succeeds), the LocalUserRecord is created,
and join returns (true, the empty message). -/
theorem c2_password_failure_swallowed (o : Oracle) (db : DB)
    (username password confirm email code uid : String) (inv : InvitationRec)
    (folders : List (String × String)) (current : List (String × PVal)) (exp : Option Int)
    (hv1 : emailOk email = true)
    (hv2 : 8 ≤ password.length ∧ password.length ≤ 20)
    (hv3 : password = confirm)
    (hv4 : o.inviteValid.1 = true)
    (hv5 : db.users.any (fun u => u.username == username || u.email == email) = false)
    (hc : o.createUserNew = .ok uid)
    (hpw : o.setPasswordCall = .error ())
    (hinv : db.invitations.find? (fun i => i.code == code) = some inv)
    (hf : o.mediaFoldersCall = .ok folders)
    (hpol : o.userPolicyCall = .ok current)
    (hsp : o.setPolicyCall = .ok ())
    (hexp : computeExpires inv.duration o.now = some exp)
    (hcu : o.commitUser = true)
    (hci : o.commitInvite = true)
    (hn : o.notifyOk = true) :
    (create_user o).1 = .ok uid
    ∧ (join o db username password confirm email code).ok = true
    ∧ (join o db username password confirm email code).msg = ""
    ∧ (join o db username password confirm email code).db.users
        = db.users ++ [⟨username, email, "emby-user", uid, code, exp⟩] := by
  subst hv3
  refine ⟨by simp [create_user, hc, hpw], ?_, ?_, ?_⟩ <;>
    simp [join, hv1, hv2, hv4, hv5, joinTry, create_user, hc, hpw,
      set_specific_folders, hinv, hf, hpol, hsp, hexp, hcu, hci, hn]

/-- Witness for claim C2 at a concrete all-valid input on which only the
password-set call fails. -/
theorem c2_password_failure_swallowed_witness :
    (join { oOk with setPasswordCall := .error () } dbA
        "alice" "password1" "password1" "a@b.c" "codeA").ok = true :=
  (c2_password_failure_swallowed { oOk with setPasswordCall := .error () } dbA
    "alice" "password1" "password1" "a@b.c" "codeA" "uid1" invA [("L1", "Movies")] [] none
    (by decide) (by decide) rfl rfl (by decide) rfl rfl (by decide) rfl rfl rfl rfl
    rfl rfl rfl).2.1

theorem joinTry_failure_shape (o : Oracle) (db : DB)
    (username password email code uid : String)
    (hc : o.createUserNew = .ok uid) (hn : o.notifyOk = true)
    (hfail : (joinTry o db username password email code).ok = false) :
    (joinTry o db username password email code).msg = genericErr
    ∧ RemoteCall.deleteUser ∉ (joinTry o db username password email code).trace
    ∧ (joinTry o db username password email code).db.invitations = db.invitations
    ∧ ((joinTry o db username password email code).db.users = db.users
        ∨ ∃ exp : Option Int, (joinTry o db username password email code).db.users
            = db.users ++ [⟨username, email, "emby-user", uid, code, exp⟩]) := by
  revert hfail
  unfold joinTry create_user set_specific_folders
  simp only [hc, hn]
  cases o.setPasswordCall <;>
  cases hfind : db.invitations.find? (fun i => i.code == code) <;>
  cases hmf : o.mediaFoldersCall <;>
  cases hup : o.userPolicyCall <;>
  cases hsp : o.setPolicyCall <;>
  (try dsimp only) <;>
  (repeat' split) <;>
  intro hfail
  all_goals first
  | (refine ⟨rfl, ?_, rfl, Or.inl rfl⟩; dsimp only; decide)
  | (refine ⟨rfl, ?_, rfl, Or.inr ⟨_, rfl⟩⟩; dsimp only; decide)
  | (exfalso; simp at hfail; done)
  | simp_all

/-- Claim C7: whenever the remote account creation succeeded but join then
fails (any exception in invitation lookup, library resolution, permission
application, expiration parsing, local-record commit or invitation-marking
commit), join returns the generic message, never issues a remote delete of
the created account (no compensating call appears in the trace), leaves the
invitations unchanged, and the committed user set is either untouched (the
pending insert was rolled back) or, when only the invitation-marking commit
failed, extended by exactly the already committed new record. -/
theorem c7_no_compensating_delete (o : Oracle) (db : DB)
    (username password confirm email code uid : String)
    (hv1 : emailOk email = true)
    (hv2 : 8 ≤ password.length ∧ password.length ≤ 20)
    (hv3 : password = confirm)
    (hv4 : o.inviteValid.1 = true)
    (hv5 : db.users.any (fun u => u.username == username || u.email == email) = false)
    (hc : o.createUserNew = .ok uid)
    (hn : o.notifyOk = true)
    (hfail : (join o db username password confirm email code).ok = false) :
    (join o db username password confirm email code).msg = genericErr
    ∧ RemoteCall.deleteUser ∉ (join o db username password confirm email code).trace
    ∧ (join o db username password confirm email code).db.invitations = db.invitations
    ∧ ((join o db username password confirm email code).db.users = db.users
        ∨ ∃ exp : Option Int, (join o db username password confirm email code).db.users
            = db.users ++ [⟨username, email, "emby-user", uid, code, exp⟩]) := by
  subst hv3
  have hj : join o db username password password email code
      = joinTry o db username password email code := by
    simp [join, hv1, hv2, hv4, hv5]
  rw [hj] at hfail ⊢
  exact joinTry_failure_shape o db username password email code uid hc hn hfail

/-- Witness for claim C7 at a concrete all-valid input whose set-policy call
fails after the remote account was created. -/
theorem c7_no_compensating_delete_witness :
    RemoteCall.deleteUser ∉ (join { oOk with setPolicyCall := .error () } dbA
        "alice" "password1" "password1" "a@b.c" "codeA").trace :=
  (c7_no_compensating_delete { oOk with setPolicyCall := .error () } dbA
    "alice" "password1" "password1" "a@b.c" "codeA" "uid1"
    (by decide) (by decide) rfl rfl (by decide) rfl rfl (by decide)).2.1

/-- Claim C1 (counterexample): on an execution where every step succeeds
except the commit inside mark_invite_used, the new User record is persisted
while the one non-reusable invitation keeps used = false and no used-at or
used-by stamp: the user insert and the invitation consumption are not one
atomic transaction, so it is not the case that either both or neither
persist. -/
theorem c1_atomicity_counterexample :
    invA.used = false
    ∧ invA.unlimited = false
    ∧ (join { oOk with commitInvite := false } dbA
        "alice" "password1" "password1" "a@b.c" "codeA").db.users
      = [⟨"alice", "a@b.c", "emby-user", "uid1", "codeA", none⟩]
    ∧ (join { oOk with commitInvite := false } dbA
        "alice" "password1" "password1" "a@b.c" "codeA").db.invitations = [invA] := by
  decide

/-- Claim C1 (amended): the LocalUserRecord insert and the invitation
consumption are committed as two separate consecutive transactions, the
user record first: once the user-insert commit succeeds the new record is
persisted whatever happens next; the invitation-consumption update persists
only if its own later commit succeeds, and is rolled back alone (leaving the
user record in place) when that commit fails. -/
theorem c1_two_separate_commits (o : Oracle) (db : DB)
    (username password confirm email code uid : String) (inv : InvitationRec)
    (folders : List (String × String)) (current : List (String × PVal)) (exp : Option Int)
    (hv1 : emailOk email = true)
    (hv2 : 8 ≤ password.length ∧ password.length ≤ 20)
    (hv3 : password = confirm)
    (hv4 : o.inviteValid.1 = true)
    (hv5 : db.users.any (fun u => u.username == username || u.email == email) = false)
    (hc : o.createUserNew = .ok uid)
    (hinv : db.invitations.find? (fun i => i.code == code) = some inv)
    (hf : o.mediaFoldersCall = .ok folders)
    (hpol : o.userPolicyCall = .ok current)
    (hsp : o.setPolicyCall = .ok ())
    (hexp : computeExpires inv.duration o.now = some exp)
    (hcu : o.commitUser = true) :
    (join o db username password confirm email code).db.users
        = db.users ++ [⟨username, email, "emby-user", uid, code, exp⟩]
    ∧ (o.commitInvite = false →
        (join o db username password confirm email code).db.invitations = db.invitations)
    ∧ (o.commitInvite = true →
        (join o db username password confirm email code).db.invitations
          = db.invitations.map (fun i =>
              if i.code = inv.code then mark_invite_used i username o.now else i)) := by
  subst hv3
  have hj : join o db username password password email code
      = joinTry o db username password email code := by
    simp [join, hv1, hv2, hv4, hv5]
  rw [hj]
  refine ⟨?_, ?_, ?_⟩
  · cases hpw : o.setPasswordCall <;>
    cases hci : o.commitInvite <;>
    cases hno : o.notifyOk <;>
      simp [joinTry, create_user, hc, hpw, hinv, set_specific_folders, hf, hpol, hsp,
        hexp, hcu, hci, hno]
  · intro hci
    cases hpw : o.setPasswordCall <;>
      simp [joinTry, create_user, hc, hpw, hinv, set_specific_folders, hf, hpol, hsp,
        hexp, hcu, hci]
  · intro hci
    cases hpw : o.setPasswordCall <;>
    cases hno : o.notifyOk <;>
      simp [joinTry, create_user, hc, hpw, hinv, set_specific_folders, hf, hpol, hsp,
        hexp, hcu, hci, hno]

/-- Witness for the amended claim C1: with the invitation-consumption commit
failing, the user record is still appended to the committed user set. -/
theorem c1_two_separate_commits_witness :
    (join { oOk with commitInvite := false } dbA
        "alice" "password1" "password1" "a@b.c" "codeA").db.users
      = dbA.users ++ [⟨"alice", "a@b.c", "emby-user", "uid1", "codeA", none⟩] :=
  (c1_two_separate_commits { oOk with commitInvite := false } dbA
    "alice" "password1" "password1" "a@b.c" "codeA" "uid1" invA [("L1", "Movies")] [] none
    (by decide) (by decide) rfl rfl (by decide) rfl (by decide) rfl rfl rfl rfl rfl).1

/-- A concrete invitation whose duration string is the non-positive "0". -/
def inv0 : InvitationRec := ⟨"codeA", [], false, some "0", false, none, none⟩

/-- A concrete database holding the duration-"0" invitation. -/
def db0 : DB := ⟨[], [inv0], [lib1]⟩

/-- A concrete invitation whose duration string is "7". -/
def inv7 : InvitationRec := ⟨"codeA", [], false, some "7", false, none, none⟩

/-- A concrete database holding the duration-"7" invitation. -/
def db7 : DB := ⟨[], [inv7], [lib1]⟩

/-- Claim C9 (counterexample): the invitation's duration "0" is not a positive
number of days, so the claim requires the created record's expiration to be
none; but join succeeds and stores expiration now + 0 = now, because the
code gates the computation on Python truthiness of the duration string and
"0" is a truthy (non-empty) string. -/
theorem c9_expiration_counterexample :
    (join { oOk with now := 100 } db0
        "alice" "password1" "password1" "a@b.c" "codeA").ok = true
    ∧ (join { oOk with now := 100 } db0
        "alice" "password1" "password1" "a@b.c" "codeA").db.users
      = [⟨"alice", "a@b.c", "emby-user", "uid1", "codeA", some 100⟩] := by decide

/-- Claim C9 (amended): on every successful join the created LocalUserRecord
carries expiration now + int(duration) days if and only if the invitation's
duration field is truthy (non-null and non-empty as a string), and none
otherwise; duration "7" yields now + 7 days, but duration "0" yields an
expiration equal to now (not none) and a negative duration a past time. -/
theorem c9_expiration_truthiness (o : Oracle) (db : DB)
    (username password confirm email code uid : String) (inv : InvitationRec)
    (folders : List (String × String)) (current : List (String × PVal)) (exp : Option Int)
    (hv1 : emailOk email = true)
    (hv2 : 8 ≤ password.length ∧ password.length ≤ 20)
    (hv3 : password = confirm)
    (hv4 : o.inviteValid.1 = true)
    (hv5 : db.users.any (fun u => u.username == username || u.email == email) = false)
    (hc : o.createUserNew = .ok uid)
    (hinv : db.invitations.find? (fun i => i.code == code) = some inv)
    (hf : o.mediaFoldersCall = .ok folders)
    (hpol : o.userPolicyCall = .ok current)
    (hsp : o.setPolicyCall = .ok ())
    (hexp : computeExpires inv.duration o.now = some exp)
    (hcu : o.commitUser = true)
    (hci : o.commitInvite = true)
    (hn : o.notifyOk = true) :
    (join o db username password confirm email code).ok = true
    ∧ (join o db username password confirm email code).db.users
        = db.users ++ [⟨username, email, "emby-user", uid, code, exp⟩]
    ∧ (inv.duration = none → exp = none)
    ∧ (inv.duration = some "" → exp = none)
    ∧ (∀ s : String, ∀ d : Int, inv.duration = some s → s ≠ "" →
        pyIntOfString s = some d → exp = some (o.now + d)) := by
  subst hv3
  refine ⟨?_, ?_, ?_, ?_, ?_⟩
  · cases hpw : o.setPasswordCall <;>
      simp [join, hv1, hv2, hv4, hv5, joinTry, create_user, hc, hpw, hinv,
        set_specific_folders, hf, hpol, hsp, hexp, hcu, hci, hn]
  · cases hpw : o.setPasswordCall <;>
      simp [join, hv1, hv2, hv4, hv5, joinTry, create_user, hc, hpw, hinv,
        set_specific_folders, hf, hpol, hsp, hexp, hcu, hci, hn]
  · intro hd
    rw [hd] at hexp
    simp [computeExpires] at hexp
    exact hexp.symm
  · intro hd
    rw [hd] at hexp
    simp [computeExpires] at hexp
    exact hexp.symm
  · intro s d hd hne hparse
    rw [hd] at hexp
    simp [computeExpires, hne, hparse] at hexp
    exact hexp.symm

/-- Witness for the amended claim C9: duration "7" with now = 0 yields a
record whose expiration is day 7. -/
theorem c9_expiration_truthiness_witness :
    (join oOk db7 "alice" "password1" "password1" "a@b.c" "codeA").db.users
      = db7.users ++ [⟨"alice", "a@b.c", "emby-user", "uid1", "codeA", some 7⟩] :=
  (c9_expiration_truthiness oOk db7
    "alice" "password1" "password1" "a@b.c" "codeA" "uid1" inv7 [("L1", "Movies")] []
    (some 7) (by decide) (by decide) rfl rfl (by decide) rfl (by decide) rfl rfl rfl
    (by decide) rfl rfl rfl).2.1
